import Mathlib

/-!
Shallow embedding of the SneakerSniper proxy manager
(services/proxy/proxy-manager.py).

The Proxy dataclass is embedded as a structure; Python floats become
rationals and timestamps are rationals counting seconds. The manager's
Redis-backed state (the active and burned url sets, the per-url proxy
hashes, the in-memory cost ledger and the system-alerts channel) is an
explicit ManagerState record, and each manager method becomes a function
from state to state. Redis sets are lists with explicit membership checks,
and the per-proxy hash is an association list keyed by proxy url.
-/

namespace ProxyManager

/-- The Proxy dataclass: configuration and rolling usage statistics.
Field defaults mirror the dataclass defaults. -/
structure Proxy where
  url : String
  provider : String
  proxy_type : String
  location : Option String := none
  username : Option String := none
  password : Option String := none
  sticky_session_id : Option String := none
  requests : Nat := 0
  failures : Nat := 0
  success : Nat := 0
  total_bandwidth_mb : ℚ := 0
  last_used : Option ℚ := none
  last_error : Option String := none
  response_times : List ℚ := []
  deriving Repr, DecidableEq

/-- Proxy.failure_rate: failures divided by requests, as a percentage;
0 when there are no requests yet. -/
def failure_rate (p : Proxy) : ℚ :=
  if p.requests > 0 then (p.failures : ℚ) / (p.requests : ℚ) * 100 else 0

/-- The Python slice xs[-n:]: the last n entries of xs (all of xs when it
is shorter than n). -/
def lastSlice (n : Nat) (xs : List ℚ) : List ℚ :=
  xs.drop (xs.length - n)

/-- Proxy.avg_response_time: mean of the last 100 retained samples, 0 when
no samples exist. -/
def avg_response_time (p : Proxy) : ℚ :=
  if p.response_times.isEmpty then 0
  else (lastSlice 100 p.response_times).sum / ((lastSlice 100 p.response_times).length : ℚ)

/-- Proxy.health_score: success rate (max 60) + response-time score
(max 30) + recency score (max 10), capped at 100; a brand-new proxy with
no requests scores 100. The parameter now stands for datetime.now(),
in seconds. -/
def health_score (now : ℚ) (p : Proxy) : ℚ :=
  if p.requests = 0 then 100
  else
    let success_rate : ℚ :=
      if p.requests > 0 then (p.success : ℚ) / (p.requests : ℚ) * 60 else 60
    let avg_time : ℚ := avg_response_time p
    let time_score : ℚ := if avg_time > 0 then max 0 (30 - avg_time / 50) else 30
    let recency_score : ℚ :=
      match p.last_used with
      | some t => max 0 (10 - ((now - t) / 60) / 6)
      | none => 10
    min 100 (success_rate + time_score + recency_score)

/-- An alert published on the system_alerts channel (the numeric
failure-rate percentage that the source interpolates into the message text
is elided from the message string). -/
structure Alert where
  message : String
  severity : String
  proxy_url : String
  deriving Repr, DecidableEq

/-- The manager-visible store state: per-url proxy records (the Redis
hashes), the active and burned url sets, the in-memory per-provider cost
ledger, the list of alerts published so far, and the urls whose records
received a retention expiry. -/
structure ManagerState where
  proxyRecs : List (String × Proxy) := []
  active : List String := []
  burned : List String := []
  cost_tracker : List (String × ℚ) := []
  alerts : List Alert := []
  expired : List String := []
  deriving Repr, DecidableEq

/-- Redis sadd on a set modelled as a duplicate-free-by-use list. -/
def setAdd (s : List String) (x : String) : List String :=
  if x ∈ s then s else x :: s

/-- Redis srem. -/
def setRem (s : List String) (x : String) : List String :=
  s.filter (fun y => y ≠ x)

/-- Lookup of the hash stored at key url (Redis hgetall of proxy:url). -/
def recsGet : List (String × Proxy) → String → Option Proxy
  | [], _ => none
  | e :: es, url => if e.1 = url then some e.2 else recsGet es url

/-- Drop every binding of the given key. -/
def eraseKey : List (String × Proxy) → String → List (String × Proxy)
  | [], _ => []
  | e :: es, url => if e.1 = url then eraseKey es url else e :: eraseKey es url

/-- Overwrite the hash stored at key p.url (Redis hset with mapping). -/
def recsSet (recs : List (String × Proxy)) (p : Proxy) : List (String × Proxy) :=
  (p.url, p) :: eraseKey recs p.url

/-- The persisted form of a proxy record: Proxy.to_dict keeps only the
last 100 response-time samples. -/
def persisted (p : Proxy) : Proxy :=
  { p with response_times := lastSlice 100 p.response_times }

/-- ProxyManager._save_proxy: hset the to_dict form under proxy:url. -/
def save_proxy (s : ManagerState) (p : Proxy) : ManagerState :=
  { s with proxyRecs := recsSet s.proxyRecs (persisted p) }

/-- Cost-ledger lookup; a missing provider reads as 0 (defaultdict float). -/
def ledgerGet : List (String × ℚ) → String → ℚ
  | [], _ => 0
  | e :: es, k => if e.1 = k then e.2 else ledgerGet es k

/-- Drop every binding of the given provider key. -/
def eraseKeyQ : List (String × ℚ) → String → List (String × ℚ)
  | [], _ => []
  | e :: es, k => if e.1 = k then eraseKeyQ es k else e :: eraseKeyQ es k

/-- The += update of the defaultdict cost tracker. -/
def ledgerAdd (l : List (String × ℚ)) (k : String) (v : ℚ) : List (String × ℚ) :=
  (k, ledgerGet l k + v) :: eraseKeyQ l k

/-- ProxyManager._calculate_cost: per-GB rate by proxy type (an unknown
type falls back to 1.0), plus a flat 0.001 per-request surcharge for
residential proxies. -/
def calculate_cost (p : Proxy) (bandwidth_mb : ℚ) : ℚ :=
  let base_rate : ℚ :=
    if p.proxy_type = ("residential") then 15
    else if p.proxy_type = ("isp") then 3
    else if p.proxy_type = ("datacenter") then 1/2
    else 1
  let bandwidth_cost : ℚ := bandwidth_mb / 1024 * base_rate
  if p.proxy_type = ("residential") then bandwidth_cost + 1/1000 else bandwidth_cost

/-- ProxyManager._burn_proxy: srem from the active set, sadd to the burned
set, set a retention expiry on the record, publish one alert. -/
def burn_proxy (s : ManagerState) (p : Proxy) : ManagerState :=
  { s with
    active := setRem s.active p.url
    burned := setAdd s.burned p.url
    expired := s.expired ++ [p.url]
    alerts := s.alerts ++
      [{ message := ("Proxy burned: ") ++ p.provider ++ (" proxy"),
         severity := ("warning"),
         proxy_url := p.url }] }

/-- The pure part of ProxyManager.report_usage: the in-place mutation of
the Proxy object (increment counters, record the error on failure, append
the response time, accumulate bandwidth). -/
def report_usage_proxy (p : Proxy) (success : Bool) (response_time : ℚ)
    (bandwidth_mb : ℚ) (error : Option String) : Proxy :=
  let p1 := { p with requests := p.requests + 1 }
  let p2 :=
    if success then { p1 with success := p1.success + 1 }
    else { p1 with failures := p1.failures + 1, last_error := error }
  { p2 with
    response_times := p2.response_times ++ [response_time],
    total_bandwidth_mb := p2.total_bandwidth_mb + bandwidth_mb }

/-- ProxyManager.report_usage: mutate the proxy, accrue cost for its
provider, persist the record, then burn when the failure rate exceeds 30
per cent over more than 10 requests. Returns the new store state and the
mutated proxy object. -/
def report_usage (s : ManagerState) (p : Proxy) (success : Bool) (response_time : ℚ)
    (bandwidth_mb : ℚ) (error : Option String) : ManagerState × Proxy :=
  let p2 := report_usage_proxy p success response_time bandwidth_mb error
  let s1 := { s with
    cost_tracker := ledgerAdd s.cost_tracker p2.provider (calculate_cost p2 bandwidth_mb) }
  let s2 := save_proxy s1 p2
  if failure_rate p2 > 30 ∧ p2.requests > 10 then (burn_proxy s2 p2, p2) else (s2, p2)

/-- ProxyManager._provision_proxies: split the count evenly over the
registered providers (guarded against an empty provider map), acquire from
each, persist every new proxy and sadd it to the active set. A provider is
a name paired with its get_proxies function. -/
def provision_proxies (providers : List (String × (Nat → List Proxy)))
    (s : ManagerState) (count : Nat) : ManagerState :=
  let proxies_per_provider := if providers.isEmpty then count else count / providers.length
  providers.foldl
    (fun st pr =>
      (pr.2 proxies_per_provider).foldl
        (fun st2 p =>
          let st3 := save_proxy st2 p
          { st3 with active := setAdd st3.active p.url }) st) s

/-- The requirements dict passed to get_proxy; an absent key reads as its
default (the dict .get calls in the source). -/
structure Requirements where
  type : Option String := none
  location : Option String := none
  min_health_score : Option ℚ := none
  deriving Repr, DecidableEq

/-- The three filters of get_proxy: type match, location match, and health
score at least the minimum (the source skips a proxy when its health score
is strictly below the minimum). -/
def matches_requirements (now : ℚ) (proxy_type location : String) (min_health_score : ℚ)
    (p : Proxy) : Bool :=
  (proxy_type == ("any") || p.proxy_type == proxy_type) &&
  (location == ("any") || p.location == some location) &&
  (decide (min_health_score ≤ health_score now p))

/-- Stable insertion into a list sorted descending by score: an element is
placed before the first strictly smaller score, so equal scores keep their
encounter order, exactly as the stable Python list.sort with reverse=True. -/
def insertDesc (x : ℚ × Proxy) : List (ℚ × Proxy) → List (ℚ × Proxy)
  | [] => [x]
  | y :: ys => if y.1 ≤ x.1 then x :: y :: ys else y :: insertDesc x ys

/-- Stable descending sort by score (models scored_proxies.sort with key
score, reverse=True). -/
def sortDesc : List (ℚ × Proxy) → List (ℚ × Proxy)
  | [] => []
  | x :: xs => insertDesc x (sortDesc xs)

/-- Selection rule as the spec words it: the entry of maximum score, ties
broken by encounter order (the first maximal entry of the list). -/
def firstMax : List (ℚ × Proxy) → Option (ℚ × Proxy)
  | [] => none
  | x :: xs =>
    match firstMax xs with
    | none => some x
    | some b => if b.1 ≤ x.1 then some x else some b

/-- The records of the active urls, in set-encounter order; a url whose
record is missing is skipped silently. -/
def active_candidates (s : ManagerState) : List Proxy :=
  s.active.filterMap (fun url => recsGet s.proxyRecs url)

/-- The active candidates that survive the requirement filters. -/
def surviving (now : ℚ) (proxy_type location : String) (min_health_score : ℚ)
    (s : ManagerState) : List Proxy :=
  (active_candidates s).filter (matches_requirements now proxy_type location min_health_score)

/-- ProxyManager.get_proxy: read requirements with their defaults,
provision a batch of 10 when the active set is empty, filter and score the
active candidates, sort by health score descending, take the best, stamp
last_used and persist it. Returns the new state and the selected proxy
(none models the no-proxy result). -/
def get_proxy (providers : List (String × (Nat → List Proxy))) (now : ℚ)
    (s : ManagerState) (r : Requirements) : ManagerState × Option Proxy :=
  let proxy_type := r.type.getD ("any")
  let location := r.location.getD ("any")
  let min_health_score := r.min_health_score.getD 70
  let s1 := if s.active.isEmpty then provision_proxies providers s 10 else s
  let scored := (surviving now proxy_type location min_health_score s1).map
    (fun p => (health_score now p, p))
  match (sortDesc scored).head? with
  | none => (s1, none)
  | some b =>
    let best := { b.2 with last_used := some now }
    (save_proxy s1 best, some best)

/-- BrightDataProvider.rotate_ip: a fresh session id (built in the source
from time.time() and a random suffix, passed here as the parameters t and
rand) replaces the sticky session id and is re-embedded in the username. -/
def brightdata_rotate_ip (customer_id zone : String) (t rand : Nat) (p : Proxy) : Proxy :=
  let new_session_id := ("session_") ++ toString t ++ ("_") ++ toString rand
  { p with
    sticky_session_id := some new_session_id,
    username := some (customer_id ++ ("-zone-") ++ zone ++ ("-session-") ++ new_session_id) }

/-- The Python assignment parts[-1] = v on a non-empty list. -/
def setLastPart (parts : List String) (v : String) : List String :=
  parts.dropLast ++ [v]

/-- OxylabsProvider.rotate_ip: split the username on dashes, overwrite the
final (session) component with a fresh suffix built from time.time() and a
random number, and join back. A missing username would fault in the
source, so the embedding returns none in that case. -/
def oxylabs_rotate_ip (t rand : Nat) (p : Proxy) : Option Proxy :=
  p.username.map (fun u =>
    let parts := u.splitOn ("-")
    { p with
      username := some (String.intercalate ("-") (setLastPart parts (toString t ++ toString rand))) })

/-- A whole sequence of usage reports folded over one proxy object. -/
def report_seq (p : Proxy) (calls : List (Bool × ℚ × ℚ × Option String)) : Proxy :=
  calls.foldl (fun q c => report_usage_proxy q c.1 c.2.1 c.2.2.1 c.2.2.2) p

/-- The burn threshold as the spec phrases it: failures over requests
above 0.30 together with more than 10 requests. -/
def burnCondition (p : Proxy) : Prop :=
  (p.failures : ℚ) / (p.requests : ℚ) > 3/10 ∧ p.requests > 10

/-- Pool soundness with respect to the burn policy: every recorded proxy
past the burn threshold lives in the burned set and not in the active
set. -/
def burnInvariant (s : ManagerState) : Prop :=
  ∀ url p, recsGet s.proxyRecs url = some p → burnCondition p →
    url ∈ s.burned ∧ url ∉ s.active

/-! ### Concrete instances used by witnesses and counterexamples -/

/-- A brand-new residential proxy. -/
def freshPx : Proxy :=
  { url := ("u"), provider := ("oxylabs"), proxy_type := ("residential") }

/-- A proxy sitting exactly at the documented example figures: 20 requests,
7 failures (35 per cent failure rate). -/
def examplePx : Proxy :=
  { url := ("u"), provider := ("oxylabs"), proxy_type := ("residential"),
    requests := 20, failures := 7, success := 13, response_times := [100] }

/-- A proxy with mixed history, for evaluating the health formula. -/
def px4 : Proxy :=
  { url := ("u"), provider := ("bright_data"), proxy_type := ("isp"),
    location := some ("us"), requests := 2, failures := 1, success := 1,
    response_times := [50, 100], last_used := some 0 }

/-- The example proxy after the burn-triggering failure report. -/
def burnedPx : Proxy :=
  { url := ("u"), provider := ("oxylabs"), proxy_type := ("residential"),
    requests := 21, failures := 8, success := 13, last_error := some ("boom"),
    response_times := [100, 100] }

/-- The alert the first burn of the example proxy publishes. -/
def burnedAlert : Alert :=
  { message := ("Proxy burned: oxylabs proxy"), severity := ("warning"), proxy_url := ("u") }

/-- The store state after the example proxy has already been burned once:
its url sits in the burned set only, and one alert has been published. -/
def burnedSt : ManagerState :=
  { proxyRecs := [(("u"), burnedPx)], active := [], burned := [("u")],
    cost_tracker := [(("oxylabs"), 1/1000)], alerts := [burnedAlert], expired := [("u")] }

/-- A small pool with two healthy proxies for exercising selection. -/
def selSt : ManagerState :=
  { proxyRecs := [(("u"), freshPx), (("w"), { freshPx with url := ("w") })],
    active := [("u"), ("w")] }

/-- An Oxylabs-shaped proxy carrying a session id inside its username. -/
def pxOxy : Proxy :=
  { freshPx with username := some ("customer-name-cc-us-sessid-123") }

/-- The empty store. -/
def emptySt : ManagerState := {}

/-! ### Helper lemmas on the store model -/

theorem mem_setAdd_self (s : List String) (x : String) : x ∈ setAdd s x := by
  unfold setAdd
  split
  · assumption
  · exact List.mem_cons_self x s

theorem mem_setAdd_of_mem {s : List String} {y : String} (x : String) (h : y ∈ s) :
    y ∈ setAdd s x := by
  unfold setAdd
  split
  · exact h
  · exact List.mem_cons_of_mem x h

theorem setAdd_eq_of_mem {s : List String} {x : String} (h : x ∈ s) : setAdd s x = s := by
  unfold setAdd
  exact if_pos h

theorem not_mem_setRem_self (s : List String) (x : String) : x ∉ setRem s x := by
  intro h
  have := (List.mem_filter.mp h).2
  simp at this

theorem mem_of_mem_setRem {s : List String} {x y : String} (h : y ∈ setRem s x) : y ∈ s :=
  (List.mem_filter.mp h).1

theorem setRem_eq_of_not_mem {s : List String} {x : String} (h : x ∉ s) : setRem s x = s := by
  unfold setRem
  apply List.filter_eq_self.mpr
  intro a ha
  simp only [decide_eq_true_eq]
  intro heq
  exact h (heq ▸ ha)

theorem recsGet_recsSet_self (recs : List (String × Proxy)) (p : Proxy) :
    recsGet (recsSet recs p) p.url = some p := by
  simp [recsSet, recsGet]

theorem recsGet_eraseKey {recs : List (String × Proxy)} {k url : String} (h : url ≠ k) :
    recsGet (eraseKey recs k) url = recsGet recs url := by
  induction recs with
  | nil => rfl
  | cons e es ih =>
    by_cases he : e.1 = k
    · have hne : ¬ e.1 = url := fun hu => h (hu ▸ he)
      simp only [eraseKey, if_pos he, recsGet, if_neg hne]
      exact ih
    · simp only [eraseKey, if_neg he, recsGet]
      split
      · rfl
      · exact ih

theorem recsGet_recsSet_ne (recs : List (String × Proxy)) (p : Proxy) {url : String}
    (h : url ≠ p.url) : recsGet (recsSet recs p) url = recsGet recs url := by
  have hne : ¬ (p.url, p).1 = url := fun hk => h hk.symm
  simp only [recsSet, recsGet, if_neg hne]
  exact recsGet_eraseKey h

theorem ledgerGet_ledgerAdd_self (l : List (String × ℚ)) (k : String) (v : ℚ) :
    ledgerGet (ledgerAdd l k v) k = ledgerGet l k + v := by
  simp [ledgerAdd, ledgerGet]

/-! ### Basic facts about report_usage_proxy -/

theorem report_usage_proxy_requests (p : Proxy) (success : Bool) (rt bw : ℚ)
    (err : Option String) :
    (report_usage_proxy p success rt bw err).requests = p.requests + 1 := by
  cases success <;> rfl

theorem report_usage_proxy_counters (p : Proxy) (success : Bool) (rt bw : ℚ)
    (err : Option String) :
    (report_usage_proxy p success rt bw err).success
      + (report_usage_proxy p success rt bw err).failures
      = p.success + p.failures + 1 := by
  cases success <;> simp [report_usage_proxy] <;> omega

theorem report_usage_proxy_url (p : Proxy) (success : Bool) (rt bw : ℚ)
    (err : Option String) :
    (report_usage_proxy p success rt bw err).url = p.url := by
  cases success <;> rfl

theorem report_usage_proxy_provider (p : Proxy) (success : Bool) (rt bw : ℚ)
    (err : Option String) :
    (report_usage_proxy p success rt bw err).provider = p.provider := by
  cases success <;> rfl

theorem report_usage_proxy_type_eq (p : Proxy) (success : Bool) (rt bw : ℚ)
    (err : Option String) :
    (report_usage_proxy p success rt bw err).proxy_type = p.proxy_type := by
  cases success <;> rfl

theorem report_usage_proxy_rts (p : Proxy) (success : Bool) (rt bw : ℚ)
    (err : Option String) :
    (report_usage_proxy p success rt bw err).response_times = p.response_times ++ [rt] := by
  cases success <;> rfl

/-- C3: after any sequence of ReportUsage calls the counter invariant
requests = successes + failures still holds, and a single call increments
requests by one and exactly one of successes or failures by one. -/
theorem report_usage_counter_invariant :
    (∀ (p : Proxy) (success : Bool) (rt bw : ℚ) (err : Option String),
      (report_usage_proxy p success rt bw err).requests = p.requests + 1 ∧
      ((report_usage_proxy p success rt bw err).success
          + (report_usage_proxy p success rt bw err).failures = p.success + p.failures + 1) ∧
      (success = true →
        (report_usage_proxy p success rt bw err).success = p.success + 1 ∧
        (report_usage_proxy p success rt bw err).failures = p.failures) ∧
      (success = false →
        (report_usage_proxy p success rt bw err).failures = p.failures + 1 ∧
        (report_usage_proxy p success rt bw err).success = p.success)) ∧
    (∀ (p : Proxy) (calls : List (Bool × ℚ × ℚ × Option String)),
      p.requests = p.success + p.failures →
      (report_seq p calls).requests = (report_seq p calls).success + (report_seq p calls).failures) := by
  constructor
  · intro p success rt bw err
    refine ⟨report_usage_proxy_requests p success rt bw err,
      report_usage_proxy_counters p success rt bw err, ?_, ?_⟩
    · intro h
      subst h
      exact ⟨rfl, rfl⟩
    · intro h
      subst h
      exact ⟨rfl, rfl⟩
  · intro p calls
    induction calls generalizing p with
    | nil => exact fun h => h
    | cons c cs ih =>
      intro h
      apply ih
      rw [report_usage_proxy_requests, report_usage_proxy_counters, h]

/-- Witness for C3 at a concrete fresh proxy and a concrete call list. -/
theorem report_usage_counter_invariant_witness :
    (report_seq freshPx
        [(true, 5, 0, none), (false, 7, 1, some ("err")), (true, 9, 0, none)]).requests =
      (report_seq freshPx
        [(true, 5, 0, none), (false, 7, 1, some ("err")), (true, 9, 0, none)]).success +
      (report_seq freshPx
        [(true, 5, 0, none), (false, 7, 1, some ("err")), (true, 9, 0, none)]).failures :=
  report_usage_counter_invariant.2 freshPx
    [(true, 5, 0, none), (false, 7, 1, some ("err")), (true, 9, 0, none)] rfl

theorem avg_response_time_nonneg (p : Proxy) (h : ∀ x ∈ p.response_times, 0 ≤ x) :
    0 ≤ avg_response_time p := by
  unfold avg_response_time
  split
  · exact le_refl 0
  · apply div_nonneg
    · apply List.sum_nonneg
      intro x hx
      exact h x (List.mem_of_mem_drop hx)
    · exact Nat.cast_nonneg _

/-- C4: the health score is 100 for a brand-new proxy and otherwise equals
the clamped-to-[0,100] sum of the success, latency and recency components,
with the latency component 30 flat when no samples exist and the recency
component 10 when the proxy was never used. Response-time samples are
elapsed milliseconds, hence nonnegative. -/
theorem health_score_formula (now : ℚ) (p : Proxy)
    (h : ∀ x ∈ p.response_times, 0 ≤ x) :
    health_score now p =
      if p.requests = 0 then 100
      else
        max 0 (min 100
          ((p.success : ℚ) / (p.requests : ℚ) * 60 +
           (if p.response_times = [] then (30 : ℚ)
            else max 0 (30 - avg_response_time p / 50)) +
           (match p.last_used with
            | some t => max 0 (10 - ((now - t) / 60) / 6)
            | none => (10 : ℚ)))) := by
  by_cases h0 : p.requests = 0
  · simp [health_score, h0]
  · have hreq : p.requests > 0 := Nat.pos_of_ne_zero h0
    have havg : 0 ≤ avg_response_time p := avg_response_time_nonneg p h
    have hT : (if avg_response_time p > 0 then max 0 (30 - avg_response_time p / 50)
                else (30 : ℚ)) =
              (if p.response_times = [] then (30 : ℚ)
                else max 0 (30 - avg_response_time p / 50)) := by
      by_cases hrts : p.response_times = []
      · have : avg_response_time p = 0 := by
          simp [avg_response_time, hrts]
        simp [this, hrts]
      · rcases lt_or_eq_of_le havg with hpos | hzero
        · simp [hrts, if_pos hpos]
        · rw [if_neg (by rw [← hzero]; exact lt_irrefl 0), if_neg hrts, ← hzero]
          norm_num
    have hsum : 0 ≤ (p.success : ℚ) / (p.requests : ℚ) * 60 +
        (if p.response_times = [] then (30 : ℚ)
          else max 0 (30 - avg_response_time p / 50)) +
        (match p.last_used with
          | some t => max 0 (10 - ((now - t) / 60) / 6)
          | none => (10 : ℚ)) := by
      have h1 : 0 ≤ (p.success : ℚ) / (p.requests : ℚ) * 60 := by
        apply mul_nonneg (div_nonneg (Nat.cast_nonneg _) (Nat.cast_nonneg _))
        norm_num
      have h2 : 0 ≤ (if p.response_times = [] then (30 : ℚ)
          else max 0 (30 - avg_response_time p / 50)) := by
        split
        · norm_num
        · exact le_max_left 0 _
      have h3 : 0 ≤ (match p.last_used with
          | some t => max 0 (10 - ((now - t) / 60) / 6)
          | none => (10 : ℚ)) := by
        cases p.last_used with
        | none => norm_num
        | some t => exact le_max_left 0 _
      linarith
    simp only [health_score, if_neg h0, if_pos hreq, hT]
    rw [max_eq_right (le_min (by norm_num) hsum)]

/-- Witness for C4 at a concrete proxy with two requests, one success, two
retained samples and a stale last-use stamp. -/
theorem health_score_formula_witness :
    health_score 60 px4 =
      if px4.requests = 0 then 100
      else
        max 0 (min 100
          ((px4.success : ℚ) / (px4.requests : ℚ) * 60 +
           (if px4.response_times = [] then (30 : ℚ)
            else max 0 (30 - avg_response_time px4 / 50)) +
           (match px4.last_used with
            | some t => max 0 (10 - ((60 - t) / 60) / 6)
            | none => (10 : ℚ)))) :=
  health_score_formula 60 px4 (by decide)

theorem report_usage_cost_tracker (s : ManagerState) (p : Proxy) (success : Bool)
    (rt bw : ℚ) (err : Option String) :
    (report_usage s p success rt bw err).1.cost_tracker =
      ledgerAdd s.cost_tracker (report_usage_proxy p success rt bw err).provider
        (calculate_cost (report_usage_proxy p success rt bw err) bw) := by
  simp only [report_usage]
  split <;> rfl

theorem calculate_cost_report (p : Proxy) (success : Bool) (rt bw : ℚ) (err : Option String) :
    calculate_cost (report_usage_proxy p success rt bw err) bw = calculate_cost p bw := by
  unfold calculate_cost
  rw [report_usage_proxy_type_eq]

/-- C7: every ReportUsage call adds to the per-provider ledger exactly the
bandwidth cost at the per-GB rate of the proxy type (residential 15.0,
isp 3.0, datacenter 0.5) plus the flat 0.001 per-request surcharge for
residential proxies only; 2048 MB over one residential request costs
30.001. -/
theorem cost_accrual_model :
    (∀ (s : ManagerState) (p : Proxy) (success : Bool) (rt bw : ℚ) (err : Option String),
      ledgerGet (report_usage s p success rt bw err).1.cost_tracker p.provider =
        ledgerGet s.cost_tracker p.provider + calculate_cost p bw) ∧
    (∀ (p : Proxy) (bw : ℚ), p.proxy_type = ("residential") →
      calculate_cost p bw = bw / 1024 * 15 + 1/1000) ∧
    (∀ (p : Proxy) (bw : ℚ), p.proxy_type = ("isp") →
      calculate_cost p bw = bw / 1024 * 3) ∧
    (∀ (p : Proxy) (bw : ℚ), p.proxy_type = ("datacenter") →
      calculate_cost p bw = bw / 1024 * (1/2)) ∧
    (∀ p : Proxy, p.proxy_type = ("residential") → calculate_cost p 2048 = 30001/1000) := by
  refine ⟨?_, ?_, ?_, ?_, ?_⟩
  · intro s p success rt bw err
    rw [report_usage_cost_tracker, report_usage_proxy_provider, calculate_cost_report,
      ledgerGet_ledgerAdd_self]
  · intro p bw h
    simp [calculate_cost, h]
  · intro p bw h
    simp [calculate_cost, h]
  · intro p bw h
    simp [calculate_cost, h]
  · intro p h
    simp [calculate_cost, h]
    norm_num

/-- Witness for C7: the ledger effect and the three rates at concrete
proxies, including the documented 30.001 example. -/
theorem cost_accrual_model_witness :
    ledgerGet (report_usage burnedSt examplePx true 5 2048 none).1.cost_tracker
        examplePx.provider =
      ledgerGet burnedSt.cost_tracker examplePx.provider + calculate_cost examplePx 2048 ∧
    calculate_cost examplePx 2048 = (2048 : ℚ) / 1024 * 15 + 1/1000 ∧
    calculate_cost px4 512 = (512 : ℚ) / 1024 * 3 ∧
    calculate_cost { px4 with proxy_type := ("datacenter") } 512 =
      (512 : ℚ) / 1024 * (1/2) ∧
    calculate_cost examplePx 2048 = 30001/1000 :=
  ⟨cost_accrual_model.1 burnedSt examplePx true 5 2048 none,
   cost_accrual_model.2.1 examplePx 2048 rfl,
   cost_accrual_model.2.2.1 px4 512 rfl,
   cost_accrual_model.2.2.2.1 { px4 with proxy_type := ("datacenter") } 512 rfl,
   cost_accrual_model.2.2.2.2 examplePx rfl⟩

theorem report_seq_rts_length (p : Proxy) (calls : List (Bool × ℚ × ℚ × Option String)) :
    (report_seq p calls).response_times.length = p.response_times.length + calls.length := by
  induction calls generalizing p with
  | nil => simp [report_seq]
  | cons c cs ih =>
    have hstep : (report_usage_proxy p c.1 c.2.1 c.2.2.1 c.2.2.2).response_times.length
        = p.response_times.length + 1 := by
      rw [report_usage_proxy_rts]
      simp
    calc (report_seq p (c :: cs)).response_times.length
        = (report_usage_proxy p c.1 c.2.1 c.2.2.1 c.2.2.2).response_times.length + cs.length := by
          exact ih _
      _ = p.response_times.length + (c :: cs).length := by rw [hstep]; simp; omega

/-- C5 counterexample: the in-memory response-times list of the Proxy
object is not trimmed by report_usage, so after 101 ReportUsage calls it
holds 101 entries, exceeding 100. -/
theorem response_buffer_unbounded_cex :
    100 < (report_seq freshPx (List.replicate 101 (true, 5, 0, none))).response_times.length := by
  rw [report_seq_rts_length]
  simp [freshPx]

theorem report_usage_fst_proxyRecs (s : ManagerState) (p : Proxy) (success : Bool)
    (rt bw : ℚ) (err : Option String) :
    (report_usage s p success rt bw err).1.proxyRecs =
      recsSet s.proxyRecs (persisted (report_usage_proxy p success rt bw err)) := by
  simp only [report_usage]
  split <;> rfl

/-- C5 as amended: trimming happens at persistence time, not on append.
After any ReportUsage call the stored record for the proxy holds the last
at-most-100 samples of the appended history, the oldest entries dropped
first; the in-memory list on the Proxy object itself is unbounded. -/
theorem persisted_buffer_bounded (s : ManagerState) (p : Proxy) (success : Bool)
    (rt bw : ℚ) (err : Option String) :
    ∃ q, recsGet (report_usage s p success rt bw err).1.proxyRecs p.url = some q ∧
      q.response_times =
        (p.response_times ++ [rt]).drop ((p.response_times ++ [rt]).length - 100) ∧
      q.response_times.length ≤ 100 := by
  refine ⟨persisted (report_usage_proxy p success rt bw err), ?_, ?_, ?_⟩
  · rw [report_usage_fst_proxyRecs]
    have hurl : (persisted (report_usage_proxy p success rt bw err)).url = p.url := by
      simp [persisted, report_usage_proxy_url]
    rw [← hurl]
    exact recsGet_recsSet_self _ _
  · simp [persisted, lastSlice, report_usage_proxy_rts]
  · simp only [persisted, lastSlice]
    rw [List.length_drop]
    omega

theorem failure_rate_gt_iff (p : Proxy) (h : p.requests > 0) :
    failure_rate p > 30 ↔ (p.failures : ℚ) / (p.requests : ℚ) > 3/10 := by
  unfold failure_rate
  rw [if_pos h]
  constructor <;> intro hx <;> linarith

theorem report_usage_active (s : ManagerState) (p : Proxy) (success : Bool)
    (rt bw : ℚ) (err : Option String) :
    (report_usage s p success rt bw err).1.active =
      if failure_rate (report_usage_proxy p success rt bw err) > 30 ∧
          (report_usage_proxy p success rt bw err).requests > 10
      then setRem s.active p.url else s.active := by
  simp only [report_usage]
  split
  next h =>
    simp only [burn_proxy, save_proxy]
    rw [report_usage_proxy_url]
  next h =>
    rfl

theorem report_usage_burned (s : ManagerState) (p : Proxy) (success : Bool)
    (rt bw : ℚ) (err : Option String) :
    (report_usage s p success rt bw err).1.burned =
      if failure_rate (report_usage_proxy p success rt bw err) > 30 ∧
          (report_usage_proxy p success rt bw err).requests > 10
      then setAdd s.burned p.url else s.burned := by
  simp only [report_usage]
  split
  next h =>
    simp only [burn_proxy, save_proxy]
    rw [report_usage_proxy_url]
  next h =>
    rfl

theorem report_usage_alerts (s : ManagerState) (p : Proxy) (success : Bool)
    (rt bw : ℚ) (err : Option String) :
    (report_usage s p success rt bw err).1.alerts =
      if failure_rate (report_usage_proxy p success rt bw err) > 30 ∧
          (report_usage_proxy p success rt bw err).requests > 10
      then s.alerts ++
        [{ message := ("Proxy burned: ") ++ p.provider ++ (" proxy"),
           severity := ("warning"), proxy_url := p.url }]
      else s.alerts := by
  simp only [report_usage]
  split
  next h =>
    simp only [burn_proxy, save_proxy]
    rw [report_usage_proxy_url, report_usage_proxy_provider]
  next h =>
    rfl

theorem burnCondition_persisted (p : Proxy) :
    burnCondition (persisted p) ↔ burnCondition p := Iff.rfl

/-- C1: report_usage preserves the burn-policy soundness of the pool
(every recorded proxy whose failures over requests exceed 0.30 with more
than 10 requests is in the burned set and not in the active set), and a
proxy at 20 requests and 7 failures is burned by its next ReportUsage
call, leaving the active set, joining the burned set and publishing
exactly one new alert. -/
theorem report_usage_burn_policy :
    (∀ (s : ManagerState) (p : Proxy) (success : Bool) (rt bw : ℚ) (err : Option String),
      burnInvariant s → burnInvariant (report_usage s p success rt bw err).1) ∧
    (∀ (s : ManagerState) (p : Proxy) (success : Bool) (rt bw : ℚ) (err : Option String),
      p.requests = 20 → p.failures = 7 →
      p.url ∉ (report_usage s p success rt bw err).1.active ∧
      p.url ∈ (report_usage s p success rt bw err).1.burned ∧
      (report_usage s p success rt bw err).1.alerts.length = s.alerts.length + 1) := by
  constructor
  · intro s p success rt bw err hinv url q hget hcond
    have hP2url : (persisted (report_usage_proxy p success rt bw err)).url = p.url := by
      simp only [persisted]
      exact report_usage_proxy_url p success rt bw err
    rw [report_usage_fst_proxyRecs] at hget
    rw [report_usage_burned, report_usage_active]
    by_cases hu : url = p.url
    · subst hu
      rw [← hP2url, recsGet_recsSet_self] at hget
      have hq : q = persisted (report_usage_proxy p success rt bw err) :=
        (Option.some.injEq _ _ ▸ hget).symm
      have hcond2 : burnCondition (report_usage_proxy p success rt bw err) := by
        rw [← burnCondition_persisted, ← hq]
        exact hcond
      have hreqpos : (report_usage_proxy p success rt bw err).requests > 0 :=
        Nat.lt_of_lt_of_le (by omega) (Nat.le_of_lt hcond2.2)
      have hc : failure_rate (report_usage_proxy p success rt bw err) > 30 ∧
          (report_usage_proxy p success rt bw err).requests > 10 :=
        ⟨(failure_rate_gt_iff _ hreqpos).mpr hcond2.1, hcond2.2⟩
      rw [if_pos hc, if_pos hc]
      exact ⟨mem_setAdd_self _ _, not_mem_setRem_self _ _⟩
    · have hne : url ≠ (persisted (report_usage_proxy p success rt bw err)).url := by
        rw [hP2url]
        exact hu
      rw [recsGet_recsSet_ne _ _ hne] at hget
      obtain ⟨hb, hna⟩ := hinv url q hget hcond
      constructor
      · split
        · exact mem_setAdd_of_mem _ hb
        · exact hb
      · split
        · intro hmem
          exact hna (mem_of_mem_setRem hmem)
        · exact hna
  · intro s p success rt bw err h20 h7
    have hreq : (report_usage_proxy p success rt bw err).requests = 21 := by
      rw [report_usage_proxy_requests, h20]
    have hfail : (report_usage_proxy p success rt bw err).failures = 7 ∨
        (report_usage_proxy p success rt bw err).failures = 8 := by
      cases success
      · right
        simp [report_usage_proxy, h7]
      · left
        simp [report_usage_proxy, h7]
    have hc : failure_rate (report_usage_proxy p success rt bw err) > 30 ∧
        (report_usage_proxy p success rt bw err).requests > 10 := by
      refine ⟨?_, by omega⟩
      unfold failure_rate
      rw [if_pos (by omega), hreq]
      rcases hfail with hf | hf <;> rw [hf] <;> norm_num
    refine ⟨?_, ?_, ?_⟩
    · rw [report_usage_active, if_pos hc]
      exact not_mem_setRem_self _ _
    · rw [report_usage_burned, if_pos hc]
      exact mem_setAdd_self _ _
    · rw [report_usage_alerts, if_pos hc]
      simp

/-- Witness for C1: the invariant survives a concrete call, and the 20/7
example proxy is burned with one alert on a concrete state. -/
theorem report_usage_burn_policy_witness :
    burnInvariant (report_usage selSt examplePx false 100 0 (some ("boom"))).1 ∧
    (examplePx.url ∉ (report_usage selSt examplePx false 100 0 (some ("boom"))).1.active ∧
     examplePx.url ∈ (report_usage selSt examplePx false 100 0 (some ("boom"))).1.burned ∧
     (report_usage selSt examplePx false 100 0 (some ("boom"))).1.alerts.length =
       selSt.alerts.length + 1) :=
  ⟨report_usage_burn_policy.1 selSt examplePx false 100 0 (some ("boom"))
      (by
        intro url q hget hcond
        have h1 : ¬ ((20 : ℚ) / 1 > 3/10 ∧ (1 : Nat) > 10) := by norm_num
        simp only [selSt, freshPx, recsGet] at hget
        by_cases hu : ("u" : String) = url
        · rw [if_pos hu] at hget
          cases hget
          exact absurd hcond.2 (by norm_num [burnCondition])
        · rw [if_neg hu] at hget
          by_cases hw : ("w" : String) = url
          · rw [if_pos hw] at hget
            cases hget
            exact absurd hcond.2 (by norm_num [burnCondition])
          · rw [if_neg hw] at hget
            cases hget),
   report_usage_burn_policy.2 selSt examplePx false 100 0 (some ("boom")) rfl rfl⟩

/-- C6 counterexample: the already-burned example proxy still satisfies
the burn threshold, so a further ReportUsage call runs _burn_proxy again
and publishes a second, identical alert for the same proxy url. -/
theorem double_burn_alert_cex :
    (report_usage burnedSt burnedPx false 100 0 none).1.alerts = [burnedAlert, burnedAlert] := by
  rw [report_usage_alerts]
  rw [if_pos ?side]
  case side =>
    constructor
    · unfold failure_rate
      rw [if_pos (by decide)]
      norm_num [report_usage_proxy, burnedPx]
    · decide
  rfl

/-- C6 as amended: burning an already-burned proxy again raises no error
and leaves the active and burned sets exactly as after the first burn,
but because _burn_proxy publishes unconditionally and report_usage does
not gate on set membership, the second burn does publish one further
alert for that proxy. -/
theorem burn_again_sets_stable_extra_alert (s : ManagerState) (p : Proxy) (success : Bool)
    (rt bw : ℚ) (err : Option String)
    (hb : p.url ∈ s.burned) (ha : p.url ∉ s.active)
    (hrate : failure_rate (report_usage_proxy p success rt bw err) > 30)
    (hreq : (report_usage_proxy p success rt bw err).requests > 10) :
    (report_usage s p success rt bw err).1.active = s.active ∧
    (report_usage s p success rt bw err).1.burned = s.burned ∧
    (report_usage s p success rt bw err).1.alerts.length = s.alerts.length + 1 := by
  refine ⟨?_, ?_, ?_⟩
  · rw [report_usage_active, if_pos ⟨hrate, hreq⟩]
    exact setRem_eq_of_not_mem ha
  · rw [report_usage_burned, if_pos ⟨hrate, hreq⟩]
    exact setAdd_eq_of_mem hb
  · rw [report_usage_alerts, if_pos ⟨hrate, hreq⟩]
    simp

/-- Witness for C6 on the concrete post-first-burn state. -/
theorem burn_again_sets_stable_extra_alert_witness :
    (report_usage burnedSt burnedPx false 100 0 none).1.active = burnedSt.active ∧
    (report_usage burnedSt burnedPx false 100 0 none).1.burned = burnedSt.burned ∧
    (report_usage burnedSt burnedPx false 100 0 none).1.alerts.length =
      burnedSt.alerts.length + 1 :=
  burn_again_sets_stable_extra_alert burnedSt burnedPx false 100 0 none
    (by decide) (by decide)
    (by
      unfold failure_rate
      rw [if_pos (by decide)]
      norm_num [report_usage_proxy, burnedPx])
    (by decide)

theorem health_score_eq (now : ℚ) (p : Proxy) (h0 : p.requests ≠ 0) :
    health_score now p =
      min 100 ((p.success : ℚ) / (p.requests : ℚ) * 60 +
        (if avg_response_time p > 0 then max 0 (30 - avg_response_time p / 50) else 30) +
        (match p.last_used with
         | some t => max 0 (10 - ((now - t) / 60) / 6)
         | none => (10 : ℚ))) := by
  simp only [health_score, if_neg h0, if_pos (Nat.pos_of_ne_zero h0)]

/-- C8: with requests, response times and recency held fixed, the health
score strictly decreases as the number of failures (hence the failure
rate) increases; response-time samples are nonnegative and the last use
does not postdate the evaluation time. -/
theorem health_score_strict_anti (now : ℚ) (base : Proxy) (f1 f2 : Nat)
    (h12 : f1 < f2) (h2r : f2 ≤ base.requests)
    (hrt : ∀ x ∈ base.response_times, 0 ≤ x)
    (hlu : ∀ t ∈ base.last_used, t ≤ now) :
    health_score now { base with failures := f2, success := base.requests - f2 } <
    health_score now { base with failures := f1, success := base.requests - f1 } := by
  have hrpos : 0 < base.requests := by omega
  have h1r : f1 ≤ base.requests := by omega
  rw [health_score_eq now { base with failures := f2, success := base.requests - f2 }
    hrpos.ne.symm]
  rw [health_score_eq now { base with failures := f1, success := base.requests - f1 }
    hrpos.ne.symm]
  have havg2 : avg_response_time { base with failures := f2, success := base.requests - f2 } =
      avg_response_time base := rfl
  have havg1 : avg_response_time { base with failures := f1, success := base.requests - f1 } =
      avg_response_time base := rfl
  rw [havg1, havg2]
  simp only []
  obtain ⟨T, hTdef, hT0, hT30⟩ : ∃ T : ℚ,
      (if avg_response_time base > 0 then max 0 (30 - avg_response_time base / 50)
        else (30 : ℚ)) = T ∧ 0 ≤ T ∧ T ≤ 30 := by
    split
    next hpos =>
      refine ⟨_, rfl, le_max_left 0 _, ?_⟩
      have h50 : 0 ≤ avg_response_time base / 50 :=
        div_nonneg (avg_response_time_nonneg base hrt) (by norm_num)
      apply max_le (by norm_num)
      linarith
    next => exact ⟨30, rfl, by norm_num, le_refl 30⟩
  rw [hTdef]
  obtain ⟨R, hRdef, hR0, hR10⟩ : ∃ R : ℚ,
      (match base.last_used with
        | some t => max 0 (10 - ((now - t) / 60) / 6)
        | none => (10 : ℚ)) = R ∧ 0 ≤ R ∧ R ≤ 10 := by
    rcases hbl : base.last_used with _ | t
    · exact ⟨10, rfl, by norm_num, le_refl 10⟩
    · refine ⟨_, rfl, le_max_left 0 _, ?_⟩
      have ht : t ≤ now := hlu t (by rw [hbl]; rfl)
      have hx : 0 ≤ ((now - t) / 60) / 6 :=
        div_nonneg (div_nonneg (by linarith) (by norm_num)) (by norm_num)
      apply max_le (by norm_num)
      linarith
  rw [hRdef]
  have hcast2 : ((base.requests - f2 : Nat) : ℚ) = (base.requests : ℚ) - (f2 : ℚ) :=
    Nat.cast_sub h2r
  have hcast1 : ((base.requests - f1 : Nat) : ℚ) = (base.requests : ℚ) - (f1 : ℚ) :=
    Nat.cast_sub h1r
  rw [hcast1, hcast2]
  have hrQ : (0 : ℚ) < (base.requests : ℚ) := by exact_mod_cast hrpos
  have hA2 : ((base.requests : ℚ) - (f2 : ℚ)) / (base.requests : ℚ) * 60 ≤ 60 := by
    have hle : ((base.requests : ℚ) - (f2 : ℚ)) / (base.requests : ℚ) ≤ 1 := by
      rw [div_le_one hrQ]
      have : (0 : ℚ) ≤ (f2 : ℚ) := Nat.cast_nonneg f2
      linarith
    linarith
  have hA1 : ((base.requests : ℚ) - (f1 : ℚ)) / (base.requests : ℚ) * 60 ≤ 60 := by
    have hle : ((base.requests : ℚ) - (f1 : ℚ)) / (base.requests : ℚ) ≤ 1 := by
      rw [div_le_one hrQ]
      have : (0 : ℚ) ≤ (f1 : ℚ) := Nat.cast_nonneg f1
      linarith
    linarith
  have hAlt : ((base.requests : ℚ) - (f2 : ℚ)) / (base.requests : ℚ) * 60 <
      ((base.requests : ℚ) - (f1 : ℚ)) / (base.requests : ℚ) * 60 := by
    have hf : (f1 : ℚ) < (f2 : ℚ) := by exact_mod_cast h12
    have hdiv : ((base.requests : ℚ) - (f2 : ℚ)) / (base.requests : ℚ) <
        ((base.requests : ℚ) - (f1 : ℚ)) / (base.requests : ℚ) := by
      rw [div_lt_div_iff₀ hrQ hrQ]
      nlinarith
    nlinarith [hdiv, hrQ]
  rw [min_eq_right (by linarith), min_eq_right (by linarith)]
  linarith

/-- Witness for C8: at 20 requests, 7 failures score strictly below 0
failures, other factors identical. -/
theorem health_score_strict_anti_witness :
    health_score 0 { examplePx with failures := 7, success := examplePx.requests - 7 } <
    health_score 0 { examplePx with failures := 0, success := examplePx.requests - 0 } :=
  health_score_strict_anti 0 examplePx 0 7 (by decide) (by decide)
    (by decide) (by simp [examplePx])

/-- C9: for both concrete providers, rotating a session yields a proxy
with a freshly generated session identity but the same provider, type,
location and url, and every rolling statistic (requests, successes,
failures, bandwidth, response times, last use, last error) untouched. -/
theorem rotate_session_frame :
    (∀ (customer_id zone : String) (t rand : Nat) (p : Proxy),
      (brightdata_rotate_ip customer_id zone t rand p).provider = p.provider ∧
      (brightdata_rotate_ip customer_id zone t rand p).proxy_type = p.proxy_type ∧
      (brightdata_rotate_ip customer_id zone t rand p).location = p.location ∧
      (brightdata_rotate_ip customer_id zone t rand p).url = p.url ∧
      (brightdata_rotate_ip customer_id zone t rand p).requests = p.requests ∧
      (brightdata_rotate_ip customer_id zone t rand p).success = p.success ∧
      (brightdata_rotate_ip customer_id zone t rand p).failures = p.failures ∧
      (brightdata_rotate_ip customer_id zone t rand p).total_bandwidth_mb = p.total_bandwidth_mb ∧
      (brightdata_rotate_ip customer_id zone t rand p).response_times = p.response_times ∧
      (brightdata_rotate_ip customer_id zone t rand p).last_used = p.last_used ∧
      (brightdata_rotate_ip customer_id zone t rand p).last_error = p.last_error ∧
      (brightdata_rotate_ip customer_id zone t rand p).sticky_session_id =
        some (("session_") ++ toString t ++ ("_") ++ toString rand)) ∧
    (∀ (t rand : Nat) (p : Proxy) (u : String), p.username = some u →
      ∃ q, oxylabs_rotate_ip t rand p = some q ∧
        q.provider = p.provider ∧ q.proxy_type = p.proxy_type ∧ q.location = p.location ∧
        q.url = p.url ∧ q.sticky_session_id = p.sticky_session_id ∧
        q.requests = p.requests ∧ q.success = p.success ∧ q.failures = p.failures ∧
        q.total_bandwidth_mb = p.total_bandwidth_mb ∧ q.response_times = p.response_times ∧
        q.last_used = p.last_used ∧ q.last_error = p.last_error ∧
        q.username = some (String.intercalate ("-")
          (setLastPart (u.splitOn ("-")) (toString t ++ toString rand)))) := by
  constructor
  · intro customer_id zone t rand p
    exact ⟨rfl, rfl, rfl, rfl, rfl, rfl, rfl, rfl, rfl, rfl, rfl, rfl⟩
  · intro t rand p u hu
    refine ⟨{ p with username := some (String.intercalate ("-")
        (setLastPart (u.splitOn ("-")) (toString t ++ toString rand))) }, ?_,
      rfl, rfl, rfl, rfl, rfl, rfl, rfl, rfl, rfl, rfl, rfl, rfl, rfl⟩
    simp [oxylabs_rotate_ip, hu]

/-- Witness for C9 on a concrete Oxylabs-shaped proxy. -/
theorem rotate_session_frame_witness :
    ∃ q, oxylabs_rotate_ip 5 7 pxOxy = some q ∧
      q.provider = pxOxy.provider ∧ q.proxy_type = pxOxy.proxy_type ∧
      q.location = pxOxy.location ∧
      q.url = pxOxy.url ∧ q.sticky_session_id = pxOxy.sticky_session_id ∧
      q.requests = pxOxy.requests ∧ q.success = pxOxy.success ∧
      q.failures = pxOxy.failures ∧
      q.total_bandwidth_mb = pxOxy.total_bandwidth_mb ∧
      q.response_times = pxOxy.response_times ∧
      q.last_used = pxOxy.last_used ∧ q.last_error = pxOxy.last_error ∧
      q.username = some (String.intercalate ("-")
        (setLastPart ((("customer-name-cc-us-sessid-123") : String).splitOn ("-"))
          (toString 5 ++ toString 7))) :=
  rotate_session_frame.2 5 7 pxOxy ("customer-name-cc-us-sessid-123") rfl

/-- C10: with zero registered providers, provisioning is a total no-op
(the per-provider division is guarded, nothing is acquired, no error), and
get_proxy on an empty active set provisions nothing and returns the
no-proxy result rather than failing. -/
theorem zero_providers_total :
    (∀ (s : ManagerState) (count : Nat), provision_proxies [] s count = s) ∧
    (∀ (now : ℚ) (s : ManagerState) (r : Requirements), s.active = [] →
      (get_proxy [] now s r).2 = none ∧ (get_proxy [] now s r).1 = s) := by
  constructor
  · intro s count
    rfl
  · intro now s r ha
    have hcand : active_candidates s = [] := by
      simp [active_candidates, ha]
    constructor <;>
      simp [get_proxy, ha, provision_proxies, surviving, hcand, sortDesc]

/-- Witness for C10 on the empty store. -/
theorem zero_providers_total_witness :
    (get_proxy [] 0 emptySt {}).2 = none ∧ (get_proxy [] 0 emptySt {}).1 = emptySt :=
  zero_providers_total.2 0 emptySt {} rfl

theorem insertDesc_head_cons (x y : ℚ × Proxy) (ys : List (ℚ × Proxy)) :
    (insertDesc x (y :: ys)).head? = if y.1 ≤ x.1 then some x else some y := by
  simp only [insertDesc]
  split <;> rfl

theorem sortDesc_head (l : List (ℚ × Proxy)) : (sortDesc l).head? = firstMax l := by
  induction l with
  | nil => rfl
  | cons x xs ih =>
    show (insertDesc x (sortDesc xs)).head? = firstMax (x :: xs)
    cases h : sortDesc xs with
    | nil =>
      have hx : firstMax xs = none := by
        rw [← ih, h]
        rfl
      simp [firstMax, hx, insertDesc]
    | cons y ys =>
      have hx : firstMax xs = some y := by
        rw [← ih, h]
        rfl
      rw [insertDesc_head_cons]
      simp only [firstMax, hx]

theorem firstMax_eq_none {l : List (ℚ × Proxy)} : firstMax l = none ↔ l = [] := by
  cases l with
  | nil => simp [firstMax]
  | cons x xs =>
    simp only [firstMax]
    cases h : firstMax xs with
    | none => simp
    | some c =>
      show (if c.1 ≤ x.1 then some x else some c) = none ↔ x :: xs = []
      split <;> simp

theorem firstMax_mem : ∀ {l : List (ℚ × Proxy)} {b : ℚ × Proxy},
    firstMax l = some b → b ∈ l := by
  intro l
  induction l with
  | nil =>
    intro b h
    simp [firstMax] at h
  | cons x xs ih =>
    intro b h
    simp only [firstMax] at h
    cases hx : firstMax xs with
    | none =>
      simp only [hx] at h
      injection h with h2
      rw [← h2]
      exact List.mem_cons_self x xs
    | some c =>
      simp only [hx] at h
      split at h
      · injection h with h2
        rw [← h2]
        exact List.mem_cons_self x xs
      · injection h with h2
        rw [← h2]
        exact List.mem_cons_of_mem x (ih hx)

theorem firstMax_le : ∀ {l : List (ℚ × Proxy)} {b : ℚ × Proxy},
    firstMax l = some b → ∀ y ∈ l, y.1 ≤ b.1 := by
  intro l
  induction l with
  | nil =>
    intro b h
    simp [firstMax] at h
  | cons x xs ih =>
    intro b h y hy
    simp only [firstMax] at h
    cases hx : firstMax xs with
    | none =>
      simp only [hx] at h
      injection h with h2
      rcases List.mem_cons.mp hy with hyx | hyxs
      · rw [hyx, ← h2]
      · exact absurd (firstMax_eq_none.mp hx ▸ hyxs) (List.not_mem_nil y)
    | some c =>
      simp only [hx] at h
      split at h
      next hcx =>
        injection h with h2
        rw [← h2]
        rcases List.mem_cons.mp hy with hyx | hyxs
        · rw [hyx]
        · exact le_trans (ih hx y hyxs) hcx
      next hcx =>
        injection h with h2
        rw [← h2]
        rcases List.mem_cons.mp hy with hyx | hyxs
        · rw [hyx]
          exact le_of_lt (lt_of_not_le hcx)
        · exact ih hx y hyxs

/-- C2: get_proxy returns the no-proxy result exactly when no active
candidate survives the type, location and minimum-health filters, and any
returned proxy is a surviving candidate (so its health score is at least
the minimum and its type and location match every explicit non-any
requirement) of maximum health score, ties resolved to the earliest in
encounter order, stamped with the selection time. -/
theorem get_proxy_selection (providers : List (String × (Nat → List Proxy))) (now : ℚ)
    (s : ManagerState) (r : Requirements) :
    let pt := r.type.getD ("any")
    let loc := r.location.getD ("any")
    let mh := r.min_health_score.getD 70
    let s1 := if s.active.isEmpty then provision_proxies providers s 10 else s
    let surv := surviving now pt loc mh s1
    ((get_proxy providers now s r).2 = none ↔ surv = []) ∧
    (∀ p, (get_proxy providers now s r).2 = some p →
      ∃ q ∈ surv, p = { q with last_used := some now } ∧
        mh ≤ health_score now q ∧
        (pt = ("any") ∨ q.proxy_type = pt) ∧
        (loc = ("any") ∨ q.location = some loc) ∧
        (∀ q2 ∈ surv, health_score now q2 ≤ health_score now q) ∧
        firstMax (surv.map (fun p2 => (health_score now p2, p2))) =
          some (health_score now q, q)) := by
  intro pt loc mh s1 surv
  have hkey : get_proxy providers now s r =
      match (sortDesc (surv.map (fun p => (health_score now p, p)))).head? with
      | none => (s1, none)
      | some b =>
        (save_proxy s1 { b.2 with last_used := some now },
         some { b.2 with last_used := some now }) := rfl
  rw [hkey]
  cases h : (sortDesc (surv.map (fun p => (health_score now p, p)))).head? with
  | none =>
    have hfm : firstMax (surv.map (fun p => (health_score now p, p))) = none := by
      rw [← sortDesc_head]
      exact h
    have hsurv : surv = [] := List.map_eq_nil_iff.mp (firstMax_eq_none.mp hfm)
    constructor
    · simp [hsurv]
    · intro p hp
      simp at hp
  | some b =>
    have hfm : firstMax (surv.map (fun p => (health_score now p, p))) = some b := by
      rw [← sortDesc_head]
      exact h
    obtain ⟨q, hqs, hqb⟩ := List.mem_map.mp (firstMax_mem hfm)
    have hne : surv ≠ [] := by
      intro hnil
      rw [hnil] at hqs
      exact List.not_mem_nil q hqs
    constructor
    · exact iff_of_false (by simp) hne
    · intro p hp
      have hpb : p = { b.2 with last_used := some now } := by
        simpa using hp.symm
      have hmr := (List.mem_filter.mp hqs).2
      simp only [matches_requirements, Bool.and_eq_true, Bool.or_eq_true, beq_iff_eq,
        decide_eq_true_eq] at hmr
      obtain ⟨⟨hty, hloc⟩, hmh⟩ := hmr
      have hqb2 : (health_score now q, q) = b := hqb
      refine ⟨q, hqs, ?_, hmh, hty, hloc, ?_, ?_⟩
      · rw [hpb, ← hqb2]
      · intro q2 hq2s
        have hmem2 : (health_score now q2, q2) ∈
            surv.map (fun p2 => (health_score now p2, p2)) :=
          List.mem_map_of_mem _ hq2s
        have hle := firstMax_le hfm _ hmem2
        rw [← hqb2] at hle
        exact hle
      · rw [hfm, ← hqb2]

/-- Witness for C2 on a concrete two-proxy pool with default
requirements: the first healthy proxy is returned in encounter order. -/
theorem get_proxy_selection_witness :
    ∃ q ∈ surviving 0 ("any") ("any") 70 selSt,
      ({ freshPx with last_used := some 0 } : Proxy) = { q with last_used := some 0 } ∧
      (70 : ℚ) ≤ health_score 0 q ∧
      (("any" : String) = ("any") ∨ q.proxy_type = ("any")) ∧
      (("any" : String) = ("any") ∨ q.location = some ("any")) ∧
      (∀ q2 ∈ surviving 0 ("any") ("any") 70 selSt,
        health_score 0 q2 ≤ health_score 0 q) ∧
      firstMax ((surviving 0 ("any") ("any") 70 selSt).map
        (fun p2 => (health_score 0 p2, p2))) = some (health_score 0 q, q) :=
  (get_proxy_selection [] 0 selSt {}).2 { freshPx with last_used := some 0 } rfl

end ProxyManager
